import Mathlib

/-!
# Verification of `rosdep2.platforms.pip`

A shallow embedding of `src/src/rosdep2/platforms/pip.py` (the pip installer
plugin of rosdep) together with proofs about its behaviour.

Python strings are modelled as Lean `String`s, with the CPython string
methods used by the module (`split`, `lower`, `strip`, concatenation)
re-implemented over the underlying character lists so that every definition
evaluates inside the kernel.  `os.environ` is an association list,
the filesystem visible to `ConfigParser` is a function from paths to file
contents, and the outcomes of subprocess probes are supplied as functions.
Python exceptions are modelled with `Except` over an explicit error type.
-/

/-- Is the first list a prefix of the second?  (used to locate substring
occurrences, as CPython `str.split`/`str.find` do). -/
def listStartsWith : List Char → List Char → Bool
  | [], _ => true
  | _ :: _, [] => false
  | a :: as, b :: bs => a == b && listStartsWith as bs

/-- Auxiliary for Python `s.split(c)` with a one-character separator:
split a character list at every occurrence of `sep`. -/
def splitCharAux (sep : Char) : List Char → List (List Char)
  | [] => [[]]
  | c :: rest =>
    if c == sep then [] :: splitCharAux sep rest
    else
      match splitCharAux sep rest with
      | [] => [[c]]
      | h :: t => (c :: h) :: t

/-- Python `s.split(sep)` for a single-character separator `sep`
(the module only splits on `':'` and `'\n'` when it keeps every piece). -/
def pySplitChar (sep : Char) (s : String) : List String :=
  (splitCharAux sep s.data).map String.mk

/-- Auxiliary: the characters before the first occurrence of `sep`. -/
def beforeFirstAux (sep : List Char) : List Char → List Char
  | [] => []
  | c :: rest =>
    if listStartsWith sep (c :: rest) then []
    else c :: beforeFirstAux sep rest

/-- Python `s.split(sep)[0]`: the text before the first occurrence of `sep`
(the whole string when `sep` does not occur).  The module only ever uses
element `[0]` of `pkg.split('==')` and of `pkg.split('@')`. -/
def beforeFirst (sep s : String) : String :=
  String.mk (beforeFirstAux sep.data s.data)

/-- ASCII lower-casing of one character, as CPython `str.lower` acts on the
ASCII characters relevant here. -/
def pyLowerChar (c : Char) : Char :=
  if 'A' ≤ c && c ≤ 'Z' then Char.ofNat (c.toNat + 32) else c

/-- Python `s.lower()`. -/
def pyLower (s : String) : String :=
  String.mk (s.data.map pyLowerChar)

/-- Python whitespace, as stripped by `str.strip()`. -/
def isPySpace (c : Char) : Bool :=
  c == ' ' || c == '\t' || c == '\n' || c == '\r' ||
    c == Char.ofNat 11 || c == Char.ofNat 12

/-- Python `s.strip()`. -/
def pyStrip (s : String) : String :=
  String.mk (((s.data.dropWhile isPySpace).reverse.dropWhile isPySpace).reverse)

/-- String concatenation (Python `+`), kept kernel-reducible. -/
def strCat (a b : String) : String :=
  String.mk (a.data ++ b.data)

/-- `os.environ`, modelled as an association list from variable names to
values. -/
abbrev Env := List (String × String)

/-- `os.environ.get(k)` / `k in os.environ` combined: the value of variable
`k`, when set. -/
def lookupEnv : Env → String → Option String
  | [], _ => none
  | (k', v) :: rest, k => if k' = k then some v else lookupEnv rest k

/-- The Python exceptions that the embedded code can raise:
`KeyError` (from `os.environ[k]`), `configparser.ParsingError` /
`MissingSectionHeaderError` (from `ConfigParser.read` on malformed content),
`ValueError` (from `ConfigParser.getboolean` on a non-boolean value) and
rosdep's own `InstallFailed`, which carries the installer key and a
message. -/
inductive PyErr where
  | keyError (key : String)
  | parsingError
  | valueError (val : String)
  | installFailed (installerKey : String) (msg : String)
deriving DecidableEq

deriving instance DecidableEq for Except

/-- `os.environ[k]`: the value of `k`, raising `KeyError` when unset. -/
def envItem (env : Env) (k : String) : Except PyErr String :=
  match lookupEnv env k with
  | some v => .ok v
  | none => .error (.keyError k)

/-- The ambient state consumed by `get_pip_command`:
`env` is `os.environ`; `cmdAvailable cmd` is the result of
`is_cmd_available(cmd)` (a subprocess probe); `pipImportable` records whether
`import pip` succeeds in-process; `sysVersionHead` is `sys.version[0]`;
`sysExecutable` is `sys.executable`. -/
structure PipEnv where
  env : Env
  cmdAvailable : List String → Bool
  pipImportable : Bool
  sysVersionHead : String
  sysExecutable : String

/-- `get_pip_command()` from `pip.py`: first try `pip<ROS_PYTHON_VERSION>`;
then, when the configured major version matches the running interpreter and
`pip` is importable, re-invoke the interpreter with `-m pip`; then try
`python<ROS_PYTHON_VERSION> -m pip`; otherwise `None`.  Accessing
`os.environ['ROS_PYTHON_VERSION']` raises `KeyError` when the variable is
unset. -/
def get_pip_command (E : PipEnv) : Except PyErr (Option (List String)) := do
  let rpv ← envItem E.env "ROS_PYTHON_VERSION"
  let cmd := [strCat "pip" rpv]
  if E.cmdAvailable cmd then
    return some cmd
  if rpv == E.sysVersionHead && E.pipImportable then
    return some [E.sysExecutable, "-m", "pip"]
  let cmd2 := [strCat "python" rpv, "-m", "pip"]
  if E.cmdAvailable cmd2 then
    return some cmd2
  return none

/-- The contents of one path as seen by `ConfigParser.read`: the file may be
absent (or unreadable — silently skipped by `read`), may fail to parse as
INI, or parses into a list of sections, each a list of `option = value`
pairs. -/
inductive File where
  | missing
  | malformed
  | ini (sections : List (String × List (String × String)))
deriving DecidableEq

/-- The filesystem: the file found at each path. -/
abbrev FS := String → File

/-- The state of a `ConfigParser`: sections with their options. -/
abbrev CPState := List (String × List (String × String))

/-- Set option `k` to `v` in an option list, replacing an existing entry
(as assigning into the parser's per-section dict does). -/
def setKV : List (String × String) → String → String → List (String × String)
  | [], k, v => [(k, v)]
  | (k', v') :: rest, k, v =>
    if k' = k then (k, v) :: rest else (k', v') :: setKV rest k v

/-- Merge a parsed section's options into existing options, later values
overriding earlier ones. -/
def setOptions (base opts : List (String × String)) : List (String × String) :=
  opts.foldl (fun acc p => setKV acc p.1 p.2) base

/-- Merge one parsed section into the parser state. -/
def setSection : CPState → String → List (String × String) → CPState
  | [], name, opts => [(name, setOptions [] opts)]
  | (n, o) :: rest, name, opts =>
    if n = name then (n, setOptions o opts) :: rest
    else (n, o) :: setSection rest name opts

/-- Merge a whole parsed file into the parser state. -/
def cpMerge (cp : CPState) (secs : CPState) : CPState :=
  secs.foldl (fun acc s => setSection acc s.1 s.2) cp

/-- `ConfigParser.read(path)`: a missing (or unreadable) file is silently
skipped; content that is not well-formed INI raises; well-formed content is
merged into the parser's accumulated state. -/
def cpRead (cp : CPState) (f : File) : Except PyErr CPState :=
  match f with
  | .missing => .ok cp
  | .malformed => .error .parsingError
  | .ini secs => .ok (cpMerge cp secs)

/-- Look up an option value among parsed options. -/
def lookupKV : List (String × String) → String → Option String
  | [], _ => none
  | (k', v) :: rest, k => if k' = k then some v else lookupKV rest k

/-- Look up a section among parsed sections. -/
def lookupSec : CPState → String → Option (List (String × String))
  | [], _ => none
  | (n, o) :: rest, m => if n = m then some o else lookupSec rest m

/-- `ConfigParser.get(sec, opt)` as an `Option`. -/
def cpLookup (cp : CPState) (sec opt : String) : Option String :=
  match lookupSec cp sec with
  | none => none
  | some opts => lookupKV opts opt

/-- `configparser.ConfigParser.BOOLEAN_STATES`. -/
def booleanStates : List (String × Bool) :=
  [("1", true), ("yes", true), ("true", true), ("on", true),
   ("0", false), ("no", false), ("false", false), ("off", false)]

/-- Look up a spelling among the recognised boolean spellings. -/
def lookupBoolState : List (String × Bool) → String → Option Bool
  | [], _ => none
  | (k', b) :: rest, k => if k' = k then some b else lookupBoolState rest k

/-- `ConfigParser._convert_to_boolean`: lower-case the value and look it up
among the recognised boolean spellings, raising `ValueError` otherwise. -/
def convertToBoolean (v : String) : Except PyErr Bool :=
  match lookupBoolState booleanStates (pyLower v) with
  | some b => .ok b
  | none => .error (.valueError v)

/-- `ConfigParser.getboolean(sec, opt, fallback=False)`: a missing section or
option yields the fallback `False`; a present value is converted, and a value
that is not a recognised boolean raises `ValueError` (the fallback does not
catch conversion errors). -/
def cpGetbooleanFB (cp : CPState) (sec opt : String) : Except PyErr Bool :=
  match cpLookup cp sec opt with
  | none => .ok false
  | some v => convertToBoolean v

/-- `Path(xdg_dir) / 'pip' / 'pip.conf'`. -/
def pipConfPath (dir : String) : String :=
  strCat dir "/pip/pip.conf"

/-- The truthiness test on the override variable:
`'PIP_BREAK_SYSTEM_PACKAGES' in os.environ and
os.environ['PIP_BREAK_SYSTEM_PACKAGES'].lower() in ('yes', '1', 'true')`. -/
def truthyOverride (env : Env) : Bool :=
  match lookupEnv env "PIP_BREAK_SYSTEM_PACKAGES" with
  | some v => decide (pyLower v ∈ (["yes", "1", "true"] : List String))
  | none => false

/-- The `for xdg_dir in os.environ['XDG_CONFIG_DIRS'].split(':')` loop of
`externally_managed_installable`, over one shared `ConfigParser`:
read each directory's `pip/pip.conf` into the accumulated state and return
early (`none`) as soon as `getboolean('install', 'break-system-packages',
fallback=False)` on the accumulated state is true; otherwise carry the
accumulated state (`some cp`) to the code after the loop. -/
def xdgScan (fs : FS) : CPState → List String → Except PyErr (Option CPState)
  | cp, [] => .ok (some cp)
  | cp, d :: rest => do
    let cp' ← cpRead cp (fs (pipConfPath d))
    let b ← cpGetbooleanFB cp' "install" "break-system-packages"
    if b then return none else xdgScan fs cp' rest

/-- `externally_managed_installable()` from `pip.py`.  `verLt311` is
`sys.version_info < (3, 11)`; `env` is `os.environ`; `fs` gives the contents
of each configuration file.  Returns whether a system-wide pip installation
is currently permitted, or the Python exception raised. -/
def externally_managed_installable (verLt311 : Bool) (env : Env) (fs : FS) :
    Except PyErr Bool :=
  if verLt311 then .ok true
  else if truthyOverride env then .ok true
  else do
    let scanned ←
      match lookupEnv env "XDG_CONFIG_DIRS" with
      | some s => xdgScan fs [] (pySplitChar ':' s)
      | none => Except.ok (some ([] : CPState))
    match scanned with
    | none => return true
    | some cp => do
      let cp' ← cpRead cp (fs "/etc/pip.conf")
      let b ← cpGetbooleanFB cp' "install" "break-system-packages"
      return b

/-- The pip package manager key, `PIP_INSTALLER = 'pip'`. -/
def PIP_INSTALLER : String := "pip"

/-- `EXTERNALLY_MANAGED_EXPLAINER` from `pip.py`, verbatim. -/
def EXTERNALLY_MANAGED_EXPLAINER : String :=
  "\nrosdep installation of pip packages requires installing packages globally as root.\nWhen using Python >= 3.11, PEP 668 compliance requires you to allow pip to install alongside\nexternally managed packages using the \x27break-system-packages\x27 option.\nThe recommeded way to set this option when using rosdep is to set the environment variable\nPIP_BREAK_SYSTEM_PACKAGES=1\nin your environment.\n\nFor more information refer to http://docs.ros.org/en/independent/api/rosdep/html/pip_and_pep_668.html\n"

/-- The first loop of `pip_detect`: walk the `pip freeze` output lines; for
each line take the text before the first `==` (`pkg.split('==')[0]`) and,
when that base name occurs in the requested list `pkgs`, append the base
name to the result. -/
def freezeMatches (pkgs : List String) : List String → List String
  | [] => []
  | line :: rest =>
    let base := beforeFirst "==" line
    if base ∈ pkgs then base :: freezeMatches pkgs rest
    else freezeMatches pkgs rest

/-- The `pip show` fallback loop of `pip_detect`: for each remaining
candidate, run `<pip_cmd> show <candidate-before-'@', stripped>`; when the
process exits 0 with non-empty (stripped) output, record the original
candidate string.  `showProc` gives each invocation's
`(returncode, stdout)`. -/
def showMatches (pip_cmd : List String) (showProc : List String → Int × String) :
    List String → List String
  | [] => []
  | pkg :: rest =>
    let res := showProc (pip_cmd ++ ["show", pyStrip (beforeFirst "@" pkg)])
    if res.1 == 0 && !(pyStrip res.2 == "") then
      pkg :: showMatches pip_cmd showProc rest
    else showMatches pip_cmd showProc rest

/-- `pip_detect(pkgs, exec_fn=None)` from `pip.py`.  `read_stdout` is the
production output function substituted when `exec_fn` is `None` (in which
case the `pip show` fallback pass also runs); `showProc` supplies the
subprocess results of the fallback pass.  Returns the detected-installed
list, or the propagated Python exception from `get_pip_command`. -/
def pip_detect (E : PipEnv) (pkgs : List String)
    (exec_fn : Option (List String → String))
    (read_stdout : List String → String)
    (showProc : List String → Int × String) :
    Except PyErr (List String) := do
  let pipCmd ← get_pip_command E
  match pipCmd with
  | none => return []
  | some pip_cmd =>
    let fallbackToPipShow := exec_fn.isNone
    let ef := exec_fn.getD read_stdout
    let pkg_list := pySplitChar '\n' (ef (pip_cmd ++ ["freeze"]))
    let ret_list := freezeMatches pkgs pkg_list
    if fallbackToPipShow then
      return ret_list ++
        showMatches pip_cmd showProc
          (pkgs.filter (fun p => decide (p ∉ ret_list)))
    else
      return ret_list

/-- Modelled from the spec: `PackageManagerInstaller.get_packages_to_install`
lives in the base class (`rosdep2.installers`), which is not under `src/`.
The spec says: "Compute the subset of requested packages not already
installed (via the Detector) or forced via the reinstall flag".  `installed`
is the Detector's result. -/
def get_packages_to_install (resolved installed : List String)
    (reinstall : Bool) : List String :=
  if reinstall then resolved
  else resolved.filter (fun p => decide (p ∉ installed))

/-- The `PipInstaller.__init__` adjustment of the inherited sudo command:
when running as root with a non-empty sudo command, append
`' --preserve-env=PIP_BREAK_SYSTEM_PACKAGES'`; otherwise leave it
unchanged.  `asRoot` and `sudoCommand` are the attributes inherited from the
base class. -/
def pipInstallerSudoCommand (asRoot : Bool) (sudoCommand : String) : String :=
  if asRoot && !(sudoCommand == "") then
    strCat sudoCommand " --preserve-env=PIP_BREAK_SYSTEM_PACKAGES"
  else sudoCommand

/-- `PipInstaller.get_install_command(resolved, interactive, reinstall,
quiet)` from `pip.py`.  `installed` is the set of packages the Detector
reports as installed (the base class's `get_packages_to_install` consults
the Detector); `elevate` is the inherited `elevate_priv` privilege-elevation
decorator ("elevation mechanism is external/injected, not defined here" per
the spec); `verLt311` and `fs` feed the policy check.  `interactive` is
accepted and unused, as in the source. -/
def get_install_command (E : PipEnv) (verLt311 : Bool) (fs : FS)
    (installed : List String) (elevate : List String → List String)
    (resolved : List String) (interactive reinstall quiet : Bool) :
    Except PyErr (List (List String)) := do
  let pipCmd ← get_pip_command E
  match pipCmd with
  | none => Except.error (PyErr.installFailed PIP_INSTALLER "pip is not installed")
  | some pip_cmd => do
    let allowed ← externally_managed_installable verLt311 E.env fs
    if !allowed then
      Except.error (PyErr.installFailed PIP_INSTALLER EXTERNALLY_MANAGED_EXPLAINER)
    else
      let packages := get_packages_to_install resolved installed reinstall
      if packages.isEmpty then
        return []
      else
        let cmd := pip_cmd ++ ["install", "-U"]
        let cmd := if quiet then cmd ++ ["-q"] else cmd
        let cmd := if reinstall then cmd ++ ["-I"] else cmd
        return packages.map (fun p => elevate (cmd ++ [p]))

/-! ## General lemmas about the embedded operations -/

theorem exBind_ok {α β : Type} (a : α) (f : α → Except PyErr β) :
    (Except.ok a >>= f) = f a := rfl

theorem exBind_err {α β : Type} (e : PyErr) (f : α → Except PyErr β) :
    ((Except.error e : Except PyErr α) >>= f) = Except.error e := rfl

/-- The freeze pass keeps exactly the freeze base names that occur verbatim
in the requested list. -/
theorem freezeMatches_eq_filter (pkgs lines : List String) :
    freezeMatches pkgs lines =
      (lines.map (fun l => beforeFirst "==" l)).filter
        (fun b => decide (b ∈ pkgs)) := by
  induction lines with
  | nil => rfl
  | cons line rest ih =>
    by_cases h : beforeFirst "==" line ∈ pkgs <;>
      simp [freezeMatches, List.filter, h, ih]

/-- Every element the freeze pass returns is one of the requested
candidates. -/
theorem freezeMatches_subset (pkgs lines : List String) :
    freezeMatches pkgs lines ⊆ pkgs := by
  induction lines with
  | nil => intro x hx; cases hx
  | cons line rest ih =>
    intro x hx
    by_cases h : beforeFirst "==" line ∈ pkgs
    · simp only [freezeMatches, if_pos h, List.mem_cons] at hx
      rcases hx with rfl | hx
      · exact h
      · exact ih hx
    · simp only [freezeMatches, if_neg h] at hx
      exact ih hx

/-- With an injected output function, `pip_detect` performs only the freeze
pass. -/
theorem pip_detect_injected (E : PipEnv) (pkgs : List String)
    (f read_stdout : List String → String)
    (showProc : List String → Int × String) (pc : List String)
    (h : get_pip_command E = .ok (some pc)) :
    pip_detect E pkgs (some f) read_stdout showProc =
      .ok (freezeMatches pkgs (pySplitChar '\n' (f (pc ++ ["freeze"])))) := by
  unfold pip_detect
  rw [h, exBind_ok]
  rfl

/-! ## Concrete fixtures used by witnesses and counterexamples -/

/-- An environment in which every probed command is available: `pip3` is
found at once. -/
def EAvail : PipEnv :=
  ⟨[("ROS_PYTHON_VERSION", "3")], fun _ => true, false, "3", "/usr/bin/python3"⟩

/-- An environment in which no probed command is available and `pip` is not
importable: the locator yields `None`. -/
def ENone : PipEnv :=
  ⟨[("ROS_PYTHON_VERSION", "3")], fun _ => false, false, "3", "/usr/bin/python3"⟩

/-- A deterministic injected output function: freeze output
`"foo==1.0\nqux==2.0"`. -/
def fInj0 : List String → String := fun _ => "foo==1.0\nqux==2.0"

/-- A stub production output function (never consulted in the scenarios it
appears in). -/
def prodStub : List String → String := fun _ => ""

/-- A stub `pip show` subprocess: exit status 1 with empty output. -/
def showStub : List String → Int × String := fun _ => (1, "")

/-! ## C2: freeze-line matching -/

/-- C2, counterexample: `pip_detect` does NOT match candidate `"foo==3.0"`
against freeze line `"foo==1.0"`: only the freeze line is split at `==`, and
its base name `"foo"` is compared with the full candidate string
`"foo==3.0"`, so the result is `[]`, not `["foo==3.0"]`. -/
theorem pip_detect_pinned_candidate_not_matched :
    pip_detect EAvail ["foo==3.0"] (some (fun _ => "foo==1.0")) prodStub showStub
        = .ok [] ∧
      pip_detect EAvail ["foo==3.0"] (some (fun _ => "foo==1.0")) prodStub showStub
        ≠ .ok ["foo==3.0"] :=
  ⟨by decide, by decide⟩

/-- C2, amended: with an injected output function, `pip_detect` returns, in
freeze-line order, exactly those freeze base names (the text before the
first `==` of each freeze line) that occur verbatim in the candidate list;
the comparison is between the freeze base name and the full candidate
string, and each returned entry is that base name — which, on a match, is
the originally requested candidate string itself. -/
theorem pip_detect_freeze_base_vs_full_candidate (E : PipEnv)
    (pkgs : List String) (f rs : List String → String)
    (sp : List String → Int × String) (pc : List String)
    (h : get_pip_command E = .ok (some pc)) :
    pip_detect E pkgs (some f) rs sp =
      .ok (((pySplitChar '\n' (f (pc ++ ["freeze"]))).map
            (fun l => beforeFirst "==" l)).filter (fun b => decide (b ∈ pkgs))) :=
  (pip_detect_injected E pkgs f rs sp pc h).trans
    (by rw [freezeMatches_eq_filter])

/-- Witness for the amended C2 theorem at a concrete input. -/
theorem pip_detect_freeze_base_vs_full_candidate_witness :
    pip_detect EAvail ["foo"] (some (fun _ => "foo==1.0")) prodStub showStub
      = .ok ["foo"] :=
  (pip_detect_freeze_base_vs_full_candidate EAvail ["foo"]
      (fun _ => "foo==1.0") prodStub showStub ["pip3"] (by decide)).trans
    (by decide)

/-! ## C6: injected output function gives a subset, `pip show` pass skipped -/

/-- C6: with any injected output function, `pip_detect` returns a subset of
the candidate list (the `pip show` fallback pass never runs), and on input
`["foo", "bar", "baz"]` with freeze output `"foo==1.0\nqux==2.0"` the result
is exactly `["foo"]`. -/
theorem pip_detect_injected_subset :
    (∀ (E : PipEnv) (pkgs : List String) (f rs : List String → String)
        (sp : List String → Int × String) (ret : List String),
        pip_detect E pkgs (some f) rs sp = .ok ret → ret ⊆ pkgs) ∧
      pip_detect EAvail ["foo", "bar", "baz"] (some fInj0) prodStub showStub
        = .ok ["foo"] := by
  constructor
  · intro E pkgs f rs sp ret h
    cases hE : get_pip_command E with
    | error e =>
      unfold pip_detect at h
      rw [hE, exBind_err] at h
      cases h
    | ok pc? =>
      cases pc? with
      | none =>
        unfold pip_detect at h
        rw [hE, exBind_ok] at h
        have h2 : (Except.ok ([] : List String) : Except PyErr (List String))
            = .ok ret := h
        rw [← Except.ok.inj h2]
        exact List.nil_subset pkgs
      | some pc =>
        rw [pip_detect_injected E pkgs f rs sp pc hE] at h
        rw [← Except.ok.inj h]
        exact freezeMatches_subset pkgs _
  · decide

/-- Witness for C6 at the concrete input of the claim. -/
theorem pip_detect_injected_subset_witness :
    ∃ ret, pip_detect EAvail ["foo", "bar", "baz"] (some fInj0) prodStub showStub
        = .ok ret ∧ ret ⊆ ["foo", "bar", "baz"] :=
  ⟨["foo"], pip_detect_injected_subset.2,
    pip_detect_injected_subset.1 EAvail ["foo", "bar", "baz"] fInj0 prodStub
      showStub ["foo"] pip_detect_injected_subset.2⟩

/-! ## C8: detection without a usable pip command -/

/-- C8: when the locator yields no usable pip command, `pip_detect` returns
the empty list and does not raise; the result is the same for every injected
output function and every subprocess behaviour, so neither is consulted. -/
theorem pip_detect_no_pip_returns_empty :
    ∀ (E : PipEnv) (pkgs : List String)
      (exec_fn : Option (List String → String))
      (rs : List String → String) (sp : List String → Int × String),
      get_pip_command E = .ok none →
      pip_detect E pkgs exec_fn rs sp = .ok [] := by
  intro E pkgs ex rs sp h
  unfold pip_detect
  rw [h, exBind_ok]
  rfl

/-- Witness for C8 at a concrete environment in which no probe succeeds. -/
theorem pip_detect_no_pip_returns_empty_witness :
    pip_detect ENone ["foo"] none prodStub showStub = .ok [] :=
  pip_detect_no_pip_returns_empty ENone ["foo"] none prodStub showStub
    (by decide)

/-! ## Lemmas about the policy check -/

/-- Unfolding of `externally_managed_installable` at runtime ≥ 3.11 when the
override variable is not truthy: only the configuration chain remains. -/
theorem emi_unfold_noov (env : Env) (fs : FS)
    (hov : truthyOverride env = false) :
    externally_managed_installable false env fs =
      (do
        let scanned ←
          match lookupEnv env "XDG_CONFIG_DIRS" with
          | some s => xdgScan fs [] (pySplitChar ':' s)
          | none => Except.ok (some ([] : CPState))
        match scanned with
        | none => return true
        | some cp => do
          let cp' ← cpRead cp (fs "/etc/pip.conf")
          let b ← cpGetbooleanFB cp' "install" "break-system-packages"
          return b) := by
  unfold externally_managed_installable
  rw [hov]
  rfl

/-- Unfolding when `XDG_CONFIG_DIRS` is set: the scan runs over the
colon-separated directories. -/
theorem emi_noov_xdg (env : Env) (fs : FS) (s : String)
    (hov : truthyOverride env = false)
    (hX : lookupEnv env "XDG_CONFIG_DIRS" = some s) :
    externally_managed_installable false env fs =
      (do
        let scanned ← xdgScan fs [] (pySplitChar ':' s)
        match scanned with
        | none => return true
        | some cp => do
          let cp' ← cpRead cp (fs "/etc/pip.conf")
          let b ← cpGetbooleanFB cp' "install" "break-system-packages"
          return b) := by
  rw [emi_unfold_noov env fs hov, hX]

/-- Unfolding when `XDG_CONFIG_DIRS` is unset: only the `/etc/pip.conf`
fallback is consulted, on the still-empty parser. -/
theorem emi_noov_noxdg (env : Env) (fs : FS)
    (hov : truthyOverride env = false)
    (hX : lookupEnv env "XDG_CONFIG_DIRS" = none) :
    externally_managed_installable false env fs =
      (do
        let cp' ← cpRead [] (fs "/etc/pip.conf")
        let b ← cpGetbooleanFB cp' "install" "break-system-packages"
        return b) := by
  rw [emi_unfold_noov env fs hov, hX]
  rfl

/-- Directories whose configuration file is absent leave the shared parser
empty and the scan continues. -/
theorem xdgScan_missing_pre (fs : FS) (pre : List String)
    (h : ∀ d ∈ pre, fs (pipConfPath d) = File.missing) (rest : List String) :
    xdgScan fs [] (pre ++ rest) = xdgScan fs [] rest := by
  induction pre with
  | nil => rfl
  | cons d pre ih =>
    have hd := h d (List.mem_cons_self d pre)
    have hrest : ∀ d' ∈ pre, fs (pipConfPath d') = File.missing :=
      fun d' hd' => h d' (List.mem_cons_of_mem d hd')
    show xdgScan fs [] (d :: (pre ++ rest)) = xdgScan fs [] rest
    simp only [xdgScan]
    rw [hd]
    exact ih hrest

/-- A scan over directories none of which has a configuration file finishes
with the parser still empty. -/
theorem xdgScan_all_missing (fs : FS) (dirs : List String)
    (h : ∀ d ∈ dirs, fs (pipConfPath d) = File.missing) :
    xdgScan fs [] dirs = .ok (some []) := by
  have h' := xdgScan_missing_pre fs dirs h []
  rw [List.append_nil] at h'
  rw [h']
  rfl

/-- A directory whose file sets `install.break-system-packages = true` (read
into the still-empty parser) makes the scan return permitted at once,
whatever comes after it. -/
theorem xdgScan_true_head (fs : FS) (d : String) (post : List String)
    (hd : fs (pipConfPath d) =
      File.ini [("install", [("break-system-packages", "true")])]) :
    xdgScan fs [] (d :: post) = .ok none := by
  simp only [xdgScan]
  rw [hd]
  rfl

/-! ## C7: the override environment variable with no configuration files -/

/-- C7: at runtime ≥ 3.11 with every configuration file absent, the policy
check returns exactly the truthiness of `PIP_BREAK_SYSTEM_PACKAGES`, which
holds precisely when the variable is set to `yes`, `1` or `true` compared
case-insensitively (so it is denied when the variable is unset or set to
`0` or `false`). -/
theorem externallyManaged_env_override_no_config (env : Env) :
    externally_managed_installable false env (fun _ => File.missing)
        = .ok (truthyOverride env) ∧
      (truthyOverride env = true ↔
        ∃ v, lookupEnv env "PIP_BREAK_SYSTEM_PACKAGES" = some v ∧
          pyLower v ∈ (["yes", "1", "true"] : List String)) := by
  constructor
  · cases hov : truthyOverride env with
    | true =>
      unfold externally_managed_installable
      rw [hov]
      rfl
    | false =>
      cases hX : lookupEnv env "XDG_CONFIG_DIRS" with
      | none => rw [emi_noov_noxdg env _ hov hX]; rfl
      | some s =>
        rw [emi_noov_xdg env _ s hov hX,
          xdgScan_all_missing _ _ (fun d _ => rfl)]
        rfl
  · constructor
    · intro h
      unfold truthyOverride at h
      cases hP : lookupEnv env "PIP_BREAK_SYSTEM_PACKAGES" with
      | none => rw [hP] at h; exact absurd h Bool.false_ne_true
      | some v => rw [hP] at h; exact ⟨v, rfl, of_decide_eq_true h⟩
    · rintro ⟨v, hv, h⟩
      unfold truthyOverride
      rw [hv]
      exact decide_eq_true h

/-- Witness for C7: with `PIP_BREAK_SYSTEM_PACKAGES=YES` (case-insensitive
truthy) and no configuration files, installation is permitted. -/
theorem externallyManaged_env_override_no_config_witness :
    externally_managed_installable false [("PIP_BREAK_SYSTEM_PACKAGES", "YES")]
      (fun _ => File.missing) = .ok true :=
  (externallyManaged_env_override_no_config
    [("PIP_BREAK_SYSTEM_PACKAGES", "YES")]).1.trans (by decide)

/-! ## C1: order of consultation of the XDG configuration directories -/

/-- Directory `a` defines the key `false`, directory `b` defines it
`true`. -/
def fsAB : FS := fun p =>
  if p = "a/pip/pip.conf" then
    .ini [("install", [("break-system-packages", "false")])]
  else if p = "b/pip/pip.conf" then
    .ini [("install", [("break-system-packages", "true")])]
  else .missing

/-- C1, counterexample: with `XDG_CONFIG_DIRS=a:b`, where `a/pip/pip.conf`
is the first file defining `install.break-system-packages` (as `false`) and
`b/pip/pip.conf` defines it `true`, the check returns permitted — the value
from the later directory `b` — not the first-defining directory's `false`:
the files are merged into one shared `ConfigParser`, and the loop only stops
early on a `true` value. -/
theorem externallyManaged_later_dir_overrides_earlier_false :
    externally_managed_installable false [("XDG_CONFIG_DIRS", "a:b")] fsAB
        = .ok true ∧
      externally_managed_installable false [("XDG_CONFIG_DIRS", "a:b")] fsAB
        ≠ .ok false :=
  ⟨by decide, by decide⟩

/-- C1, amended: the first directory whose configuration file makes the
merged configuration's `install.break-system-packages` value `true` decides
the result as permitted immediately — regardless of what every later
directory or the `/etc/pip.conf` fallback contains (here: earlier
directories have no configuration file, so the first file defining the key
defines it `true`).  A directory defining the key `false` does not stop the
scan: as the counterexample shows, a later directory's `true` overrides
it. -/
theorem externallyManaged_first_true_dir_wins (env : Env) (fs : FS)
    (s : String) (pre post : List String) (d : String)
    (hov : truthyOverride env = false)
    (hX : lookupEnv env "XDG_CONFIG_DIRS" = some s)
    (hsplit : pySplitChar ':' s = pre ++ d :: post)
    (hpre : ∀ d' ∈ pre, fs (pipConfPath d') = File.missing)
    (hd : fs (pipConfPath d) =
      File.ini [("install", [("break-system-packages", "true")])]) :
    externally_managed_installable false env fs = .ok true := by
  rw [emi_noov_xdg env fs s hov hX, hsplit,
    xdgScan_missing_pre fs pre hpre (d :: post),
    xdgScan_true_head fs d post hd]
  rfl

/-- The later sources define the key differently (directory `c` and the
`/etc` fallback say `false`), yet the first directory defining it `true`
wins. -/
def fsBFirst : FS := fun p =>
  if p = "b/pip/pip.conf" then
    .ini [("install", [("break-system-packages", "true")])]
  else if p = "c/pip/pip.conf" then
    .ini [("install", [("break-system-packages", "false")])]
  else if p = "/etc/pip.conf" then
    .ini [("install", [("break-system-packages", "false")])]
  else .missing

/-- Witness for the amended C1 theorem: `XDG_CONFIG_DIRS=a:b:c`, directory
`a` has no file, `b` defines the key `true`, `c` and `/etc/pip.conf` define
it `false`; the check is permitted. -/
theorem externallyManaged_first_true_dir_wins_witness :
    externally_managed_installable false [("XDG_CONFIG_DIRS", "a:b:c")]
      fsBFirst = .ok true :=
  externallyManaged_first_true_dir_wins
    [("XDG_CONFIG_DIRS", "a:b:c")] fsBFirst "a:b:c" ["a"] ["c"] "b"
    (by decide) (by decide) (by decide) (by decide) (by decide)

/-! ## C3: exception behaviour of the policy check -/

/-- Is a value one of the spellings `getboolean` accepts? -/
def validBool (v : String) : Bool :=
  (lookupBoolState booleanStates (pyLower v)).isSome

/-- An option list whose entries for `break-system-packages` (if any) all
carry valid boolean spellings. -/
def okOpts (opts : List (String × String)) : Prop :=
  ∀ p ∈ opts, p.1 = "break-system-packages" → validBool p.2 = true

/-- A file that `getboolean` can be asked about without raising: it is
missing, or well-formed INI whose `install` sections give the key only valid
boolean values. -/
def fileOk : File → Prop
  | .missing => True
  | .malformed => False
  | .ini secs => ∀ s ∈ secs, s.1 = "install" → okOpts s.2

/-- Parser states whose value for `install.break-system-packages`, if
present, is a valid boolean spelling. -/
def goodCP (cp : CPState) : Prop :=
  ∀ v, cpLookup cp "install" "break-system-packages" = some v →
    validBool v = true

theorem goodCP_nil : goodCP [] := by
  intro v h
  cases h

theorem lookupKV_setKV (l : List (String × String)) (k v k' : String) :
    lookupKV (setKV l k v) k' = if k = k' then some v else lookupKV l k' := by
  induction l with
  | nil => simp [setKV, lookupKV]
  | cons p rest ih =>
    obtain ⟨k₀, v₀⟩ := p
    by_cases h0 : k₀ = k
    · subst h0
      by_cases hk : k₀ = k' <;>
        simp [setKV, lookupKV, hk]
    · by_cases hk0 : k₀ = k'
      · subst hk0
        have hkk : ¬ (k = k₀) := fun e => h0 e.symm
        simp [setKV, lookupKV, h0, hkk]
      · simp [setKV, lookupKV, h0, hk0, ih]

/-- `goodOpts` for the lookup-relevant part of an option list. -/
def goodOpts (opts : List (String × String)) : Prop :=
  ∀ v, lookupKV opts "break-system-packages" = some v → validBool v = true

theorem goodOpts_nil : goodOpts [] := by
  intro v h
  cases h

theorem okOpts_goodOpts (opts : List (String × String)) (h : okOpts opts) :
    goodOpts opts := by
  induction opts with
  | nil => exact goodOpts_nil
  | cons p rest ih =>
    intro v hv
    obtain ⟨k₀, v₀⟩ := p
    by_cases hk : k₀ = "break-system-packages"
    · simp only [lookupKV, if_pos hk] at hv
      cases hv
      exact h _ (List.mem_cons_self _ _) hk
    · simp only [lookupKV, if_neg hk] at hv
      exact ih (fun p hp he => h p (List.mem_cons_of_mem _ hp) he) v hv

theorem goodOpts_setOptions (base opts : List (String × String))
    (hb : goodOpts base) (ho : okOpts opts) :
    goodOpts (setOptions base opts) := by
  induction opts generalizing base with
  | nil => exact hb
  | cons p rest ih =>
    obtain ⟨k₀, v₀⟩ := p
    have step : goodOpts (setKV base k₀ v₀) := by
      intro v hv
      rw [lookupKV_setKV] at hv
      by_cases hk : k₀ = "break-system-packages"
      · rw [if_pos hk] at hv
        cases hv
        exact ho _ (List.mem_cons_self _ _) hk
      · rw [if_neg hk] at hv
        exact hb v hv
    exact ih (setKV base k₀ v₀) step
      (fun p hp he => ho p (List.mem_cons_of_mem _ hp) he)

theorem lookupSec_setSection_self (cp : CPState) (n : String)
    (opts : List (String × String)) :
    lookupSec (setSection cp n opts) n =
      some (setOptions ((lookupSec cp n).getD []) opts) := by
  induction cp with
  | nil => simp [setSection, lookupSec]
  | cons p rest ih =>
    obtain ⟨m, o⟩ := p
    by_cases hm : m = n
    · subst hm
      simp [setSection, lookupSec]
    · simp [setSection, lookupSec, hm, ih]

theorem lookupSec_setSection_ne (cp : CPState) (n m : String)
    (opts : List (String × String)) (h : ¬ (n = m)) :
    lookupSec (setSection cp n opts) m = lookupSec cp m := by
  induction cp with
  | nil => simp [setSection, lookupSec, h]
  | cons p rest ih =>
    obtain ⟨m₀, o⟩ := p
    by_cases hm : m₀ = n
    · subst hm
      simp [setSection, lookupSec, h]
    · by_cases hmm : m₀ = m
      · subst hmm
        simp [setSection, lookupSec, hm]
      · simp [setSection, lookupSec, hm, hmm, ih]

/-- Reading one well-behaved section into a well-behaved parser keeps the
parser well-behaved. -/
theorem goodCP_setSection (cp : CPState) (n : String)
    (opts : List (String × String)) (hcp : goodCP cp)
    (hopts : n = "install" → okOpts opts) :
    goodCP (setSection cp n opts) := by
  intro v hv
  unfold cpLookup at hv
  by_cases hn : n = "install"
  · subst hn
    rw [lookupSec_setSection_self] at hv
    have hbase : goodOpts ((lookupSec cp "install").getD []) := by
      cases hL : lookupSec cp "install" with
      | none => simpa [hL] using goodOpts_nil
      | some o =>
        intro w hw
        exact hcp w (by unfold cpLookup; rw [hL]; exact hw)
    exact goodOpts_setOptions _ _ hbase (hopts rfl) v hv
  · rw [lookupSec_setSection_ne cp n "install" opts hn] at hv
    exact hcp v (by unfold cpLookup; exact hv)

/-- Merging a whole well-behaved file keeps the parser well-behaved. -/
theorem goodCP_cpMerge (secs : CPState) (cp : CPState) (hcp : goodCP cp)
    (hs : ∀ s ∈ secs, s.1 = "install" → okOpts s.2) :
    goodCP (cpMerge cp secs) := by
  induction secs generalizing cp with
  | nil => exact hcp
  | cons s rest ih =>
    have step : goodCP (setSection cp s.1 s.2) :=
      goodCP_setSection cp s.1 s.2 hcp
        (fun he => hs s (List.mem_cons_self _ _) he)
    exact ih (setSection cp s.1 s.2) step
      (fun s' hs' he => hs s' (List.mem_cons_of_mem _ hs') he)

/-- `ConfigParser.read` never raises on a `fileOk` file and preserves the
parser invariant. -/
theorem cpRead_good (cp : CPState) (f : File) (hcp : goodCP cp)
    (hf : fileOk f) :
    ∃ cp', cpRead cp f = .ok cp' ∧ goodCP cp' := by
  cases f with
  | missing => exact ⟨cp, rfl, hcp⟩
  | malformed => cases hf
  | ini secs => exact ⟨cpMerge cp secs, rfl, goodCP_cpMerge secs cp hcp hf⟩

/-- `getboolean(..., fallback=False)` never raises on a well-behaved
parser. -/
theorem cpGetbooleanFB_good (cp : CPState) (hcp : goodCP cp) :
    ∃ b, cpGetbooleanFB cp "install" "break-system-packages" = .ok b := by
  unfold cpGetbooleanFB
  cases hL : cpLookup cp "install" "break-system-packages" with
  | none => exact ⟨false, rfl⟩
  | some v =>
    have hvb := hcp v hL
    unfold validBool at hvb
    show ∃ b, convertToBoolean v = Except.ok b
    unfold convertToBoolean
    cases hB : lookupBoolState booleanStates (pyLower v) with
    | none => rw [hB] at hvb; simp at hvb
    | some b => exact ⟨b, rfl⟩

/-- The directory scan never raises when every file is well-behaved. -/
theorem xdgScan_good (fs : FS) (hfs : ∀ p, fileOk (fs p))
    (dirs : List String) (cp : CPState) (hcp : goodCP cp) :
    ∃ r, xdgScan fs cp dirs = .ok r ∧
      ∀ cp₂, r = some cp₂ → goodCP cp₂ := by
  induction dirs generalizing cp with
  | nil =>
    exact ⟨some cp, rfl, fun cp₂ h => by cases h; exact hcp⟩
  | cons d rest ih =>
    obtain ⟨cp', hread, hcp'⟩ := cpRead_good cp (fs (pipConfPath d)) hcp
      (hfs (pipConfPath d))
    obtain ⟨b, hb⟩ := cpGetbooleanFB_good cp' hcp'
    cases b with
    | true =>
      refine ⟨none, ?_, fun cp₂ h => by cases h⟩
      show (do
        let cp' ← cpRead cp (fs (pipConfPath d))
        let b ← cpGetbooleanFB cp' "install" "break-system-packages"
        if b then return none else xdgScan fs cp' rest) = .ok none
      rw [hread, exBind_ok, hb, exBind_ok]
      rfl
    | false =>
      obtain ⟨r, hr, hgood⟩ := ih cp' hcp'
      refine ⟨r, ?_, hgood⟩
      show (do
        let cp' ← cpRead cp (fs (pipConfPath d))
        let b ← cpGetbooleanFB cp' "install" "break-system-packages"
        if b then return none else xdgScan fs cp' rest) = .ok r
      rw [hread, exBind_ok, hb, exBind_ok]
      exact hr

/-- A filesystem with one malformed configuration file. -/
def fsMal : FS := fun p =>
  if p = "a/pip/pip.conf" then .malformed else .missing

/-- A filesystem whose configuration file gives the key a value that is not
a recognised boolean spelling. -/
def fsBadBool : FS := fun p =>
  if p = "a/pip/pip.conf" then
    .ini [("install", [("break-system-packages", "banana")])]
  else .missing

/-- C3, counterexample: the policy check DOES raise on bad configuration
content — a file that is not well-formed INI propagates the parse error, and
a well-formed file whose `install.break-system-packages` value is not a
recognised boolean spelling propagates `ValueError` (the `fallback=False`
of `getboolean` only covers a missing section or option). -/
theorem externallyManaged_bad_config_raises :
    externally_managed_installable false [("XDG_CONFIG_DIRS", "a")] fsMal
        = .error .parsingError ∧
      externally_managed_installable false [("XDG_CONFIG_DIRS", "a")] fsBadBool
        = .error (.valueError "banana") :=
  ⟨by decide, by decide⟩

/-- C3, amended: the policy check never raises as long as every
configuration file is either missing — missing files are silently treated as
"key absent" and the fallback chain continues — or well-formed INI whose
values for `install.break-system-packages` are recognised boolean spellings;
a malformed file or a non-boolean value for the key, however, raises. -/
theorem externallyManaged_no_raise_wellformed :
    ∀ (verLt311 : Bool) (env : Env) (fs : FS),
      (∀ p, fileOk (fs p)) →
      ∃ b, externally_managed_installable verLt311 env fs = .ok b := by
  intro vlt env fs hfs
  cases vlt with
  | true => exact ⟨true, rfl⟩
  | false =>
    cases hov : truthyOverride env with
    | true =>
      refine ⟨true, ?_⟩
      unfold externally_managed_installable
      rw [hov]
      rfl
    | false =>
      cases hX : lookupEnv env "XDG_CONFIG_DIRS" with
      | none =>
        rw [emi_noov_noxdg env fs hov hX]
        obtain ⟨cp', hread, hcp'⟩ :=
          cpRead_good [] (fs "/etc/pip.conf") goodCP_nil (hfs _)
        obtain ⟨b, hb⟩ := cpGetbooleanFB_good cp' hcp'
        refine ⟨b, ?_⟩
        rw [hread, exBind_ok, hb, exBind_ok]
        rfl
      | some s =>
        rw [emi_noov_xdg env fs s hov hX]
        obtain ⟨r, hr, hgood⟩ :=
          xdgScan_good fs hfs (pySplitChar ':' s) [] goodCP_nil
        rw [hr, exBind_ok]
        cases r with
        | none => exact ⟨true, rfl⟩
        | some cp =>
          obtain ⟨cp', hread, hcp'⟩ :=
            cpRead_good cp (fs "/etc/pip.conf") (hgood cp rfl) (hfs _)
          obtain ⟨b, hb⟩ := cpGetbooleanFB_good cp' hcp'
          refine ⟨b, ?_⟩
          show (do
            let cp' ← cpRead cp (fs "/etc/pip.conf")
            let b ← cpGetbooleanFB cp' "install" "break-system-packages"
            pure b) = Except.ok b
          rw [hread, exBind_ok, hb, exBind_ok]
          rfl

/-- Witness for the amended C3 theorem: with every file missing, the check
returns a value (and does not raise). -/
theorem externallyManaged_no_raise_wellformed_witness :
    ∃ b, externally_managed_installable false [] (fun _ => File.missing)
      = .ok b :=
  externallyManaged_no_raise_wellformed false [] (fun _ => File.missing)
    (fun _ => trivial)

/-- An environment with `pip3` available and the override variable set
truthy. -/
def EOverride : PipEnv :=
  ⟨[("ROS_PYTHON_VERSION", "3"), ("PIP_BREAK_SYSTEM_PACKAGES", "1")],
    fun _ => true, false, "3", "/usr/bin/python3"⟩

/-! ## Lemmas about `get_install_command` -/

/-- Unfolding of `get_install_command` once the locator has produced a
command. -/
theorem gic_unfold_some (E : PipEnv) (verLt311 : Bool) (fs : FS)
    (installed : List String) (elevate : List String → List String)
    (resolved : List String) (interactive reinstall quiet : Bool)
    (pc : List String) (h : get_pip_command E = .ok (some pc)) :
    get_install_command E verLt311 fs installed elevate resolved
        interactive reinstall quiet =
      (do
        let allowed ← externally_managed_installable verLt311 E.env fs
        if !allowed then
          Except.error
            (PyErr.installFailed PIP_INSTALLER EXTERNALLY_MANAGED_EXPLAINER)
        else
          let packages := get_packages_to_install resolved installed reinstall
          if packages.isEmpty then
            return []
          else
            let cmd := pc ++ ["install", "-U"]
            let cmd := if quiet then cmd ++ ["-q"] else cmd
            let cmd := if reinstall then cmd ++ ["-I"] else cmd
            return packages.map (fun p => elevate (cmd ++ [p]))) := by
  unfold get_install_command
  rw [h, exBind_ok]

/-! ## C4: failure modes and their order -/

/-- C4: when the locator yields no usable pip command,
`get_install_command` fails with the `InstallFailed('pip', 'pip is not
installed')` error — for every policy-check state and every detection
result, i.e. before either is consulted (a policy state that would itself
raise does not change the outcome); and when the locator succeeds but the
policy check denies installation, it fails with `InstallFailed` carrying the
fixed externally-managed explainer message. -/
theorem get_install_command_failure_order :
    (∀ (E : PipEnv) (verLt311 : Bool) (fs : FS) (installed : List String)
        (elevate : List String → List String) (resolved : List String)
        (interactive reinstall quiet : Bool),
        get_pip_command E = .ok none →
        get_install_command E verLt311 fs installed elevate resolved
            interactive reinstall quiet
          = .error (.installFailed PIP_INSTALLER "pip is not installed")) ∧
      (∀ (E : PipEnv) (verLt311 : Bool) (fs : FS) (installed : List String)
        (elevate : List String → List String) (resolved : List String)
        (interactive reinstall quiet : Bool) (pc : List String),
        get_pip_command E = .ok (some pc) →
        externally_managed_installable verLt311 E.env fs = .ok false →
        get_install_command E verLt311 fs installed elevate resolved
            interactive reinstall quiet
          = .error
              (.installFailed PIP_INSTALLER EXTERNALLY_MANAGED_EXPLAINER)) := by
  constructor
  · intro E vlt fs installed elevate resolved it re q h
    unfold get_install_command
    rw [h, exBind_ok]
  · intro E vlt fs installed elevate resolved it re q pc h hemi
    rw [gic_unfold_some E vlt fs installed elevate resolved it re q pc h,
      hemi, exBind_ok]
    rfl

/-- Witness for C4: both failure modes at concrete inputs (no probe
succeeds; probe succeeds but Python ≥ 3.11 denies with no override). -/
theorem get_install_command_failure_order_witness :
    get_install_command ENone false (fun _ => File.missing) [] id ["foo"]
        true false false
        = .error (.installFailed PIP_INSTALLER "pip is not installed") ∧
      get_install_command EAvail false (fun _ => File.missing) [] id ["foo"]
        true false false
        = .error
            (.installFailed PIP_INSTALLER EXTERNALLY_MANAGED_EXPLAINER) :=
  ⟨get_install_command_failure_order.1 ENone false (fun _ => File.missing)
      [] id ["foo"] true false false (by decide),
    get_install_command_failure_order.2 EAvail false (fun _ => File.missing)
      [] id ["foo"] true false false ["pip3"] (by decide) (by decide)⟩

/-! ## C5: shape of the produced install commands -/

/-- C5: when the locator succeeds and the policy check permits,
`get_install_command` returns one command per package to install — never a
batched one — each being the pip command prefix followed by `install`,
`-U`, then `-q` exactly when `quiet`, then `-I` exactly when `reinstall`,
then the package identifier as the last token, wrapped by the
privilege-elevation decorator; and the empty list when there is no package
to install. -/
theorem get_install_command_shape :
    ∀ (E : PipEnv) (verLt311 : Bool) (fs : FS) (installed : List String)
      (elevate : List String → List String) (resolved : List String)
      (interactive reinstall quiet : Bool) (pc : List String),
      get_pip_command E = .ok (some pc) →
      externally_managed_installable verLt311 E.env fs = .ok true →
      get_install_command E verLt311 fs installed elevate resolved
          interactive reinstall quiet
        = .ok ((get_packages_to_install resolved installed reinstall).map
            (fun p => elevate (pc ++ ["install", "-U"]
              ++ (if quiet then ["-q"] else [])
              ++ (if reinstall then ["-I"] else []) ++ [p]))) := by
  intro E vlt fs installed elevate resolved it re q pc h hemi
  rw [gic_unfold_some E vlt fs installed elevate resolved it re q pc h,
    hemi, exBind_ok]
  by_cases hE : (get_packages_to_install resolved installed re).isEmpty
  · have hnil : get_packages_to_install resolved installed re = [] :=
      List.isEmpty_iff.mp hE
    simp [hE, hnil]
    rfl
  · cases q <;> cases re <;> simp [hE, List.append_assoc] <;> rfl

/-- Witness for C5: two requested packages, one already installed,
`quiet=True`, `reinstall=False`: a single command ending in the missing
package and containing `-q` but not `-I`, wrapped by the elevation
decorator. -/
theorem get_install_command_shape_witness :
    get_install_command EOverride false (fun _ => File.missing) ["bar"]
        (fun c => "sudo" :: c) ["foo", "bar"] true false true
      = .ok [["sudo", "pip3", "install", "-U", "-q", "foo"]] :=
  (get_install_command_shape EOverride false (fun _ => File.missing) ["bar"]
      (fun c => "sudo" :: c) ["foo", "bar"] true false true ["pip3"]
      (by decide) (by decide)).trans (by decide)

/-! ## C9: dependence on `ROS_PYTHON_VERSION` -/

/-- C9: when `ROS_PYTHON_VERSION` is unset, `get_pip_command` raises
`KeyError` instead of signalling unavailability (`None`), and both
`pip_detect` and `get_install_command` propagate that exception — the
variable's presence is a precondition for all three. -/
theorem ros_python_version_required :
    ∀ (E : PipEnv), lookupEnv E.env "ROS_PYTHON_VERSION" = none →
      ∀ (pkgs : List String) (exec_fn : Option (List String → String))
        (rs : List String → String) (sp : List String → Int × String)
        (verLt311 : Bool) (fs : FS) (installed : List String)
        (elevate : List String → List String) (resolved : List String)
        (interactive reinstall quiet : Bool),
        get_pip_command E = .error (.keyError "ROS_PYTHON_VERSION") ∧
        pip_detect E pkgs exec_fn rs sp
            = .error (.keyError "ROS_PYTHON_VERSION") ∧
        get_install_command E verLt311 fs installed elevate resolved
            interactive reinstall quiet
          = .error (.keyError "ROS_PYTHON_VERSION") := by
  intro E h pkgs ex rs sp vlt fs installed elevate resolved it re q
  have hg : get_pip_command E = .error (.keyError "ROS_PYTHON_VERSION") := by
    unfold get_pip_command envItem
    rw [h]
    rfl
  refine ⟨hg, ?_, ?_⟩
  · unfold pip_detect
    rw [hg, exBind_err]
  · unfold get_install_command
    rw [hg, exBind_err]

/-- A state with an empty environment: `ROS_PYTHON_VERSION` is unset. -/
def ENoVar : PipEnv := ⟨[], fun _ => false, false, "3", "/usr/bin/python3"⟩

/-- Witness for C9 at the empty environment. -/
theorem ros_python_version_required_witness :
    get_pip_command ENoVar = .error (.keyError "ROS_PYTHON_VERSION") ∧
      pip_detect ENoVar [] none prodStub showStub
          = .error (.keyError "ROS_PYTHON_VERSION") ∧
      get_install_command ENoVar false (fun _ => File.missing) [] id []
          true false false
        = .error (.keyError "ROS_PYTHON_VERSION") :=
  ros_python_version_required ENoVar (by decide) [] none prodStub showStub
    false (fun _ => File.missing) [] id [] true false false

/-! ## C10: sudo command adjustment in `PipInstaller.__init__` -/

/-- C10: when configured to run as root with a non-empty sudo command, the
constructor appends `' --preserve-env=PIP_BREAK_SYSTEM_PACKAGES'` to it
exactly once (the result is precisely the old command followed by that
suffix); otherwise the sudo command is left unchanged. -/
theorem pip_sudo_preserve_env :
    ∀ (asRoot : Bool) (sudoCommand : String),
      (asRoot = true → sudoCommand ≠ "" →
        pipInstallerSudoCommand asRoot sudoCommand
          = strCat sudoCommand " --preserve-env=PIP_BREAK_SYSTEM_PACKAGES") ∧
      (asRoot = false ∨ sudoCommand = "" →
        pipInstallerSudoCommand asRoot sudoCommand = sudoCommand) := by
  intro r s
  constructor
  · intro hr hs
    subst hr
    unfold pipInstallerSudoCommand
    have hb : (s == "") = false := by
      rw [beq_eq_false_iff_ne]
      exact hs
    rw [hb]
    rfl
  · intro h
    rcases h with rfl | rfl
    · rfl
    · simp [pipInstallerSudoCommand]

/-- Witness for C10 at concrete values. -/
theorem pip_sudo_preserve_env_witness :
    pipInstallerSudoCommand true "sudo"
        = "sudo --preserve-env=PIP_BREAK_SYSTEM_PACKAGES" ∧
      pipInstallerSudoCommand false "sudo" = "sudo" :=
  ⟨((pip_sudo_preserve_env true "sudo").1 rfl (by decide)).trans (by decide),
    (pip_sudo_preserve_env false "sudo").2 (Or.inl rfl)⟩
